import Mathlib

/-!
Verification development for the `inventory_tracker` repository.

The repository under `src/` holds the Flask CRUD layer (`src/main.py`,
`src/api/index.py`).  The maintenance notification batcher the spec
describes is part of this repository but is not present under `src/`;
its data model and cycle are therefore modelled from the spec and marked
as such below.  The CRUD handlers (checkout, category management) are
embedded directly from `src/main.py`.
-/

namespace InventoryTracker

/-! ## Generic list sorting by an integer key (insertion sort) -/

/-- Insert an element into a list so that, if the list is sorted by `k`,
the result stays sorted by `k`. -/
def insertByKey (k : α → Int) (a : α) : List α → List α
  | [] => [a]
  | b :: t => if k a ≤ k b then a :: b :: t else b :: insertByKey k a t

/-- Sort a list in ascending order of the key `k`. -/
def sortByKey (k : α → Int) : List α → List α
  | [] => []
  | a :: t => insertByKey k a (sortByKey k t)

theorem mem_insertByKey (k : α → Int) (a x : α) (l : List α) :
    x ∈ insertByKey k a l ↔ x = a ∨ x ∈ l := by
  induction l with
  | nil => simp [insertByKey]
  | cons b t ih =>
    by_cases h : k a ≤ k b
    · simp [insertByKey, h]
    · simp [insertByKey, h, ih]
      tauto

theorem perm_insertByKey (k : α → Int) (a : α) (l : List α) :
    List.Perm (insertByKey k a l) (a :: l) := by
  induction l with
  | nil => simp [insertByKey]
  | cons b t ih =>
    by_cases h : k a ≤ k b
    · simp [insertByKey, h]
    · simp only [insertByKey, if_neg h]
      exact (ih.cons b).trans (List.Perm.swap a b t)

theorem perm_sortByKey (k : α → Int) (l : List α) :
    List.Perm (sortByKey k l) l := by
  induction l with
  | nil => simp [sortByKey]
  | cons a t ih =>
    exact (perm_insertByKey k a (sortByKey k t)).trans (ih.cons a)

theorem mem_sortByKey (k : α → Int) (x : α) (l : List α) :
    x ∈ sortByKey k l ↔ x ∈ l :=
  (perm_sortByKey k l).mem_iff

theorem pairwise_insertByKey (k : α → Int) (a : α) (l : List α)
    (h : l.Pairwise (fun x y => k x ≤ k y)) :
    (insertByKey k a l).Pairwise (fun x y => k x ≤ k y) := by
  induction l with
  | nil => simp [insertByKey]
  | cons b t ih =>
    rcases List.pairwise_cons.mp h with ⟨hb, ht⟩
    by_cases hab : k a ≤ k b
    · simp only [insertByKey, if_pos hab]
      refine List.pairwise_cons.mpr ⟨?_, h⟩
      intro x hx
      rcases List.mem_cons.mp hx with rfl | hx
      · exact hab
      · exact le_trans hab (hb x hx)
    · simp only [insertByKey, if_neg hab]
      refine List.pairwise_cons.mpr ⟨?_, ih ht⟩
      intro x hx
      rcases (mem_insertByKey k a x t).mp hx with rfl | hx
      · exact le_of_not_le hab
      · exact hb x hx

theorem pairwise_sortByKey (k : α → Int) (l : List α) :
    (sortByKey k l).Pairwise (fun x y => k x ≤ k y) := by
  induction l with
  | nil => simp [sortByKey]
  | cons a t ih => exact pairwise_insertByKey k a (sortByKey k t) ih

/-! ## Spec-modelled data model of the notification batcher

The batcher revision is not under `src/`; these definitions are modelled
from the spec (sections 3 and 4.1). Dates are day numbers (`Int`),
timestamps are hour numbers (`Int`). -/

/-- Modelled from the spec: the `NotificationLog.status` column of the
batcher revision, missing from `src/` (one of `due`, `overdue`,
`completed`). -/
inductive NStatus where
  | due
  | overdue
  | completed
deriving DecidableEq, Repr

/-- Modelled from the spec: the batcher revision's Item record, missing
from `src/` (id, name, maintenance-due-date, nullable last-notified-at). -/
structure MItem where
  id : Nat
  name : String
  maintenanceDue : Option Int
  lastNotifiedAt : Option Int
deriving DecidableEq, Repr

/-- Modelled from the spec: the MaintenanceEvent record of the batcher
revision, missing from `src/` (id, owning item id, description,
completed-at timestamp). -/
structure MEvent where
  id : Nat
  itemId : Nat
  description : String
  completedAt : Int
deriving DecidableEq, Repr

/-- Modelled from the spec: a NotificationLog row of the batcher revision,
missing from `src/` (optional item id, optional event id, status,
sent-at timestamp). -/
structure LogRow where
  itemId : Option Nat
  eventId : Option Nat
  status : NStatus
  sentAt : Int
deriving DecidableEq, Repr

/-- Modelled from the spec: the persistent state read and written by the
notification cycle, missing from `src/`. -/
structure DBState where
  items : List MItem
  events : List MEvent
  log : List LogRow
deriving DecidableEq, Repr

/-- Modelled from the spec: the batcher configuration, missing from
`src/` (alert window in days, completed-event lookback in hours,
repeat-suppression window in hours, recipient list). -/
structure BatcherConfig where
  alertWindowDays : Int
  completedWindowHours : Int
  repeatWindowHours : Int
  recipients : List String
deriving DecidableEq, Repr

/-- Key used to order item candidate lists: the maintenance-due date
(candidates always carry one). -/
def dueKey (it : MItem) : Int := it.maintenanceDue.getD 0

/-- Modelled from the spec: due-soon selection test, missing from `src/`
(maintenance-due date in the closed interval from today to window end). -/
def inDueWindow (today winEnd : Int) (it : MItem) : Bool :=
  match it.maintenanceDue with
  | some d => decide (today ≤ d ∧ d ≤ winEnd)
  | none => false

/-- Modelled from the spec: overdue selection test, missing from `src/`
(maintenance-due date strictly before today). -/
def isOverdue (today : Int) (it : MItem) : Bool :=
  match it.maintenanceDue with
  | some d => decide (d < today)
  | none => false

/-- Modelled from the spec: step 2 of the cycle, missing from `src/`
(due-soon items, ordered by due date ascending). -/
def dueSoonSelect (items : List MItem) (today winEnd : Int) : List MItem :=
  sortByKey dueKey (items.filter (inDueWindow today winEnd))

/-- Modelled from the spec: step 3 of the cycle, missing from `src/`
(overdue items, ordered by due date ascending). -/
def overdueSelect (items : List MItem) (today : Int) : List MItem :=
  sortByKey dueKey (items.filter (isOverdue today))

/-- Modelled from the spec: step 4 of the cycle, missing from `src/`
(events completed within the lookback window, completed-at descending). -/
def completedSelect (events : List MEvent) (now wHours : Int) : List MEvent :=
  sortByKey (fun e => -e.completedAt)
    (events.filter (fun e => decide (now - wHours ≤ e.completedAt ∧ e.completedAt ≤ now)))

/-- Modelled from the spec: the de-duplication test for items, missing
from `src/` (a log row with this item id and this status sent at or after
the window start). -/
def itemLoggedWithin (log : List LogRow) (iid : Nat) (s : NStatus) (winStart : Int) : Bool :=
  log.any (fun r =>
    decide (r.itemId = some iid) && decide (r.status = s) && decide (winStart ≤ r.sentAt))

/-- Modelled from the spec: the de-duplication test for completed events,
missing from `src/` (a log row of any status referencing this event sent
at or after the window start). -/
def eventLoggedWithin (log : List LogRow) (eid : Nat) (winStart : Int) : Bool :=
  log.any (fun r => decide (r.eventId = some eid) && decide (winStart ≤ r.sentAt))

/-- Modelled from the spec: the due-soon candidate set after
de-duplication (step 5), missing from `src/`. -/
def dueSoonFinal (cfg : BatcherConfig) (st : DBState) (today now : Int) : List MItem :=
  (dueSoonSelect st.items today (today + cfg.alertWindowDays)).filter
    (fun it => !(itemLoggedWithin st.log it.id NStatus.due (now - cfg.repeatWindowHours)))

/-- Modelled from the spec: the overdue candidate set after
de-duplication (step 5), missing from `src/`. -/
def overdueFinal (cfg : BatcherConfig) (st : DBState) (today now : Int) : List MItem :=
  (overdueSelect st.items today).filter
    (fun it => !(itemLoggedWithin st.log it.id NStatus.overdue (now - cfg.repeatWindowHours)))

/-- Modelled from the spec: the completed-event candidate set after
de-duplication (step 5), missing from `src/`. -/
def completedFinal (cfg : BatcherConfig) (st : DBState) (now : Int) : List MEvent :=
  (completedSelect st.events now cfg.completedWindowHours).filter
    (fun e => !(eventLoggedWithin st.log e.id (now - cfg.repeatWindowHours)))

/-- Modelled from the spec: the log rows written after a successful send
(step 9), missing from `src/` — one row per notified subject, stamped
with the send timestamp. -/
def cycleRows (cfg : BatcherConfig) (st : DBState) (today now : Int) : List LogRow :=
  (overdueFinal cfg st today now).map
      (fun it => { itemId := some it.id, eventId := none, status := NStatus.overdue, sentAt := now })
    ++ (dueSoonFinal cfg st today now).map
      (fun it => { itemId := some it.id, eventId := none, status := NStatus.due, sentAt := now })
    ++ (completedFinal cfg st now).map
      (fun e => { itemId := none, eventId := some e.id, status := NStatus.completed, sentAt := now })

/-- Modelled from the spec: the ids of the items notified in this cycle,
missing from `src/`. -/
def notifiedItemIds (cfg : BatcherConfig) (st : DBState) (today now : Int) : List Nat :=
  (overdueFinal cfg st today now).map MItem.id ++ (dueSoonFinal cfg st today now).map MItem.id

/-- Modelled from the spec: `run_notification_cycle`, missing from `src/`.
Deterministic delivery outcome is passed in as `sendOk` (a delivery
exception is modelled as `sendOk = false`, caught by the cycle).  Returns
the new state and whether mail was sent. -/
def runNotificationCycle (cfg : BatcherConfig) (st : DBState) (today now : Int)
    (sendOk : Bool) : DBState × Bool :=
  if dueSoonFinal cfg st today now = [] ∧ overdueFinal cfg st today now = [] ∧
      completedFinal cfg st now = [] then
    (st, false)
  else if cfg.recipients = [] then
    (st, false)
  else if sendOk then
    ({ items := st.items.map (fun it =>
         if it.id ∈ notifiedItemIds cfg st today now then
           { it with lastNotifiedAt := some now }
         else it),
       events := st.events,
       log := st.log ++ cycleRows cfg st today now }, true)
  else
    (st, false)

/-- The log rows a cycle appended, given the state before and after. -/
def newLogRows (pre post : DBState) : List LogRow :=
  post.log.drop pre.log.length

/-! ## Embedding of the CRUD handlers present in `src/main.py` -/

/-- The columns of `InventoryItem` as declared in `src/main.py`
(lines 150-169): column name paired with its nullability (`True` means
`nullable=True`; the primary key and columns with `nullable=False` are
not nullable). -/
def inventoryItemColumns : List (String × Bool) :=
  [("id", false), ("name", false), ("description", true), ("category", true),
   ("quantity", false), ("location", true), ("gps_lat", true), ("gps_lng", true),
   ("status", false), ("last_checked_in", true), ("last_checked_out", true),
   ("maintenance_due", true), ("maintenance_notes", true),
   ("created_at", false), ("updated_at", false)]

/-- An `InventoryItem` row from `src/main.py`.  Dates and datetimes are
day and hour numbers (`Int`); the `db.Float` GPS columns are carried as
`Option Int` payloads since the handlers proved here only preserve them. -/
structure ItemState where
  id : Nat
  name : String
  description : Option String
  category : Option String
  quantity : Int
  location : Option String
  gpsLat : Option Int
  gpsLng : Option Int
  status : String
  lastCheckedIn : Option Int
  lastCheckedOut : Option Int
  maintenanceDue : Option Int
  maintenanceNotes : Option String
  createdAt : Int
  updatedAt : Int
deriving DecidableEq, Repr

/-- Python `x or y` on an optional form string: `None` and the empty
string are falsy, everything else is truthy. -/
def pyFormOr (v : Option String) (fallback : Option String) : Option String :=
  match v with
  | none => fallback
  | some s => if s = "" then fallback else some s

/-- `checkout_inventory` from `src/main.py` (lines 314-322): sets status
to `checked_out`, stamps `last_checked_out`, and replaces the location
only when the `checkout_location` form value is truthy.  The commit also
refreshes `updated_at` through the column's `onupdate=datetime.utcnow`
declared at lines 167-169. -/
def checkout_inventory (item : ItemState) (checkoutLocation : Option String)
    (now : Int) : ItemState :=
  { item with
    status := "checked_out"
    lastCheckedOut := some now
    location := pyFormOr checkoutLocation item.location
    updatedAt := now }

/-- A `Category` row from `src/main.py` (lines 130-137). -/
structure Category where
  id : Nat
  name : String
deriving DecidableEq, Repr

/-- ASCII lowercasing, embedding the case folding both sides of the
duplicate check in `src/main.py` perform (`db.func.lower` and Python
`str.lower`), which agree on ASCII names. -/
def asciiLower (s : String) : String := ⟨s.data.map Char.toLower⟩

/-- Whitespace stripping, embedding Python `str.strip()` at the ASCII
level: drop leading and trailing whitespace characters. -/
def pyStrip (s : String) : String :=
  ⟨((s.data.dropWhile Char.isWhitespace).reverse.dropWhile Char.isWhitespace).reverse⟩

/-- The name both category handlers work with:
`(data.get("name") or "").strip()` from `src/main.py`. -/
def normCatName (raw : Option String) : String := pyStrip (raw.getD "")

/-- The POST branch of `manage_categories` from `src/main.py`
(lines 382-393): trim the JSON name (`(data.get("name") or "").strip()`),
reject an empty name with 400, reject a case-insensitive duplicate with
409, otherwise append the new row (the database assigns `newId`) and
answer 201. -/
def createCategory (cats : List Category) (raw : Option String) (newId : Nat) :
    List Category × Nat :=
  if normCatName raw = "" then (cats, 400)
  else if cats.any (fun c => decide (asciiLower c.name = asciiLower (normCatName raw))) then
    (cats, 409)
  else (cats ++ [{ id := newId, name := normCatName raw }], 201)

/-- `update_category` from `src/main.py` (lines 396-418): 404 when the id
is unknown, 400 on an empty trimmed name, 409 when another category has a
case-insensitively equal name, otherwise rename the category and relabel
every inventory item whose category string equals the old name, answering
200. -/
def updateCategory (cats : List Category) (items : List ItemState) (cid : Nat)
    (raw : Option String) : List Category × List ItemState × Nat :=
  match cats.find? (fun c => decide (c.id = cid)) with
  | none => (cats, items, 404)
  | some cat =>
    if normCatName raw = "" then (cats, items, 400)
    else if cats.any (fun c =>
        decide (asciiLower c.name = asciiLower (normCatName raw)) && decide (c.id ≠ cid)) then
      (cats, items, 409)
    else
      (cats.map (fun c => if c.id = cid then { c with name := normCatName raw } else c),
       items.map (fun it =>
         if it.category = some cat.name then { it with category := some (normCatName raw) }
         else it),
       200)

/-- No two categories have case-insensitively equal names. -/
def CatNamesOk (cats : List Category) : Prop :=
  cats.Pairwise (fun a b => asciiLower a.name ≠ asciiLower b.name)

/-- Categories have pairwise distinct primary keys. -/
def CatIdsOk (cats : List Category) : Prop :=
  cats.Pairwise (fun a b => a.id ≠ b.id)

/-! ## Lemmas about the notification cycle -/

theorem run_sendFail (cfg : BatcherConfig) (st : DBState) (today now : Int) :
    runNotificationCycle cfg st today now false = (st, false) := by
  unfold runNotificationCycle
  split
  · rfl
  · split
    · rfl
    · rfl

/-- The state produced by a successful send. -/
def successState (cfg : BatcherConfig) (st : DBState) (today now : Int) : DBState :=
  { items := st.items.map (fun it =>
      if it.id ∈ notifiedItemIds cfg st today now then
        { it with lastNotifiedAt := some now }
      else it),
    events := st.events,
    log := st.log ++ cycleRows cfg st today now }

theorem run_true_cases (cfg : BatcherConfig) (st : DBState) (today now : Int) :
    runNotificationCycle cfg st today now true = (st, false) ∨
    runNotificationCycle cfg st today now true = (successState cfg st today now, true) := by
  unfold runNotificationCycle
  split
  · exact Or.inl rfl
  · split
    · exact Or.inl rfl
    · exact Or.inr rfl

theorem isOverdue_iff (today : Int) (it : MItem) :
    isOverdue today it = true ↔ ∃ d, it.maintenanceDue = some d ∧ d < today := by
  cases h : it.maintenanceDue with
  | none => simp [isOverdue, h]
  | some d => simp [isOverdue, h]

theorem inDueWindow_iff (today winEnd : Int) (it : MItem) :
    inDueWindow today winEnd it = true ↔
      ∃ d, it.maintenanceDue = some d ∧ today ≤ d ∧ d ≤ winEnd := by
  cases h : it.maintenanceDue with
  | none => simp [inDueWindow, h]
  | some d => simp [inDueWindow, h]

theorem itemLoggedWithin_iff (log : List LogRow) (iid : Nat) (s : NStatus)
    (winStart : Int) :
    itemLoggedWithin log iid s winStart = true ↔
      ∃ r ∈ log, r.itemId = some iid ∧ r.status = s ∧ winStart ≤ r.sentAt := by
  simp [itemLoggedWithin, List.any_eq_true, and_assoc]

theorem mem_dueSoonFinal_iff (cfg : BatcherConfig) (st : DBState) (today now : Int)
    (it : MItem) :
    it ∈ dueSoonFinal cfg st today now ↔
      it ∈ st.items ∧ inDueWindow today (today + cfg.alertWindowDays) it = true ∧
        itemLoggedWithin st.log it.id NStatus.due (now - cfg.repeatWindowHours) = false := by
  unfold dueSoonFinal dueSoonSelect
  rw [List.mem_filter, mem_sortByKey, List.mem_filter]
  simp [and_assoc]

theorem mem_overdueFinal_iff (cfg : BatcherConfig) (st : DBState) (today now : Int)
    (it : MItem) :
    it ∈ overdueFinal cfg st today now ↔
      it ∈ st.items ∧ isOverdue today it = true ∧
        itemLoggedWithin st.log it.id NStatus.overdue (now - cfg.repeatWindowHours) = false := by
  unfold overdueFinal overdueSelect
  rw [List.mem_filter, mem_sortByKey, List.mem_filter]
  simp [and_assoc]

/-- Every row the cycle writes is stamped with `now`, and a row carrying
an item id comes from the overdue set with status `overdue` or from the
due-soon set with status `due`. -/
theorem cycleRows_spec (cfg : BatcherConfig) (st : DBState) (today now : Int)
    (r : LogRow) (hr : r ∈ cycleRows cfg st today now) :
    r.sentAt = now ∧
      (∀ iid, r.itemId = some iid →
        (r.status = NStatus.overdue ∧ ∃ it ∈ overdueFinal cfg st today now, it.id = iid) ∨
        (r.status = NStatus.due ∧ ∃ it ∈ dueSoonFinal cfg st today now, it.id = iid)) := by
  unfold cycleRows at hr
  rcases List.mem_append.mp hr with h | h
  · rcases List.mem_append.mp h with h | h
    · rcases List.mem_map.mp h with ⟨it, hit, rfl⟩
      exact ⟨rfl, fun iid hiid => Or.inl ⟨rfl, it, hit, Option.some_inj.mp hiid⟩⟩
    · rcases List.mem_map.mp h with ⟨it, hit, rfl⟩
      exact ⟨rfl, fun iid hiid => Or.inr ⟨rfl, it, hit, Option.some_inj.mp hiid⟩⟩
  · rcases List.mem_map.mp h with ⟨e, he, rfl⟩
    exact ⟨rfl, fun iid hiid => by simp at hiid⟩

theorem newLogRows_self (st : DBState) : newLogRows st st = [] := by
  simp [newLogRows]

theorem newLogRows_success (cfg : BatcherConfig) (st : DBState) (today now : Int) :
    newLogRows st (successState cfg st today now) = cycleRows cfg st today now := by
  simp [newLogRows, successState]

/-! ## Claim theorems -/

/-- Claim C2: if delivery of the composed notification fails, the cycle
writes no log rows, updates no item state, and ends normally (the caught
failure is modelled as `sendOk = false`); the next cycle therefore
recomputes exactly the same candidate sets from the unchanged state. -/
theorem delivery_failure_leaves_state_unchanged
    (cfg : BatcherConfig) (st : DBState) (today now today2 now2 : Int) :
    runNotificationCycle cfg st today now false = (st, false) ∧
    dueSoonFinal cfg (runNotificationCycle cfg st today now false).1 today2 now2 =
      dueSoonFinal cfg st today2 now2 ∧
    overdueFinal cfg (runNotificationCycle cfg st today now false).1 today2 now2 =
      overdueFinal cfg st today2 now2 ∧
    completedFinal cfg (runNotificationCycle cfg st today now false).1 now2 =
      completedFinal cfg st now2 := by
  refine ⟨run_sendFail cfg st today now, ?_, ?_, ?_⟩ <;>
    rw [run_sendFail cfg st today now]

/-- Claim C5: if after de-duplication all three candidate sets are empty,
the cycle terminates without sending mail and without writing any log
rows, and this is not an error. -/
theorem empty_sets_noop (cfg : BatcherConfig) (st : DBState) (today now : Int)
    (sendOk : Bool)
    (h1 : dueSoonFinal cfg st today now = [])
    (h2 : overdueFinal cfg st today now = [])
    (h3 : completedFinal cfg st now = []) :
    runNotificationCycle cfg st today now sendOk = (st, false) := by
  unfold runNotificationCycle
  rw [if_pos ⟨h1, h2, h3⟩]

/-- Witness for C5 at an empty database. -/
theorem empty_sets_noop_witness :
    dueSoonFinal ⟨7, 24, 24, ["ops"]⟩ ⟨[], [], []⟩ 0 0 = [] ∧
    overdueFinal ⟨7, 24, 24, ["ops"]⟩ ⟨[], [], []⟩ 0 0 = [] ∧
    completedFinal ⟨7, 24, 24, ["ops"]⟩ ⟨[], [], []⟩ 0 = [] ∧
    runNotificationCycle ⟨7, 24, 24, ["ops"]⟩ ⟨[], [], []⟩ 0 0 true =
      (⟨[], [], []⟩, false) :=
  ⟨rfl, rfl, rfl, empty_sets_noop ⟨7, 24, 24, ["ops"]⟩ ⟨[], [], []⟩ 0 0 true rfl rfl rfl⟩

/-- Claim C6: if the configured recipient list is empty, the cycle skips
delivery and writes no log rows, ending exactly like a cycle with nothing
to send. -/
theorem empty_recipients_skip (cfg : BatcherConfig) (st : DBState) (today now : Int)
    (sendOk : Bool) (h : cfg.recipients = []) :
    runNotificationCycle cfg st today now sendOk = (st, false) := by
  unfold runNotificationCycle
  split <;> simp_all

/-- Witness for C6: an overdue item qualifies, yet with no recipients the
cycle leaves the state untouched and sends nothing. -/
theorem empty_recipients_skip_witness :
    (⟨7, 24, 24, []⟩ : BatcherConfig).recipients = [] ∧
    runNotificationCycle ⟨7, 24, 24, []⟩
        ⟨[⟨1, "pump", some (-1), none⟩], [], []⟩ 0 100 true =
      (⟨[⟨1, "pump", some (-1), none⟩], [], []⟩, false) :=
  ⟨rfl, empty_recipients_skip ⟨7, 24, 24, []⟩
    ⟨[⟨1, "pump", some (-1), none⟩], [], []⟩ 0 100 true rfl⟩

/-- Claim C3: the due-soon selection is exactly the items whose
maintenance-due date lies in the closed interval from today to
today + alert window, ordered by due date ascending; an item due in 3
days is included under a 7-day window and excluded when due 10 days out. -/
theorem due_soon_selection_correct (cfg : BatcherConfig) (st : DBState) (today : Int) :
    (∀ it, it ∈ dueSoonSelect st.items today (today + cfg.alertWindowDays) ↔
        it ∈ st.items ∧ ∃ d, it.maintenanceDue = some d ∧ today ≤ d ∧
          d ≤ today + cfg.alertWindowDays)
  ∧ List.Perm (dueSoonSelect st.items today (today + cfg.alertWindowDays))
      (st.items.filter (inDueWindow today (today + cfg.alertWindowDays)))
  ∧ (dueSoonSelect st.items today (today + cfg.alertWindowDays)).Pairwise
      (fun a b => dueKey a ≤ dueKey b)
  ∧ (∀ it ∈ st.items, cfg.alertWindowDays = 7 → it.maintenanceDue = some (today + 3) →
      it ∈ dueSoonSelect st.items today (today + cfg.alertWindowDays))
  ∧ (∀ it, cfg.alertWindowDays = 7 → it.maintenanceDue = some (today + 10) →
      it ∉ dueSoonSelect st.items today (today + cfg.alertWindowDays)) := by
  have hmem : ∀ it, it ∈ dueSoonSelect st.items today (today + cfg.alertWindowDays) ↔
      it ∈ st.items ∧ inDueWindow today (today + cfg.alertWindowDays) it = true := by
    intro it
    unfold dueSoonSelect
    rw [mem_sortByKey, List.mem_filter]
  refine ⟨?_, ?_, ?_, ?_, ?_⟩
  · intro it
    exact (hmem it).trans
      (and_congr_right fun _ => inDueWindow_iff today (today + cfg.alertWindowDays) it)
  · exact perm_sortByKey dueKey _
  · exact pairwise_sortByKey dueKey _
  · intro it hit hw hdue
    refine (hmem it).mpr ⟨hit, ?_⟩
    rw [inDueWindow_iff]
    exact ⟨today + 3, hdue, by omega, by rw [hw]; omega⟩
  · intro it hw hdue hin
    have h2 := ((hmem it).mp hin).2
    rw [inDueWindow_iff] at h2
    rcases h2 with ⟨d, hd, hd1, hd2⟩
    rw [hdue] at hd
    injection hd with hd
    rw [hw] at hd2
    omega

/-- Witness for C3 at a concrete database: item due in 3 days selected,
item due in 10 days not. -/
theorem due_soon_selection_correct_witness :
    (⟨1, "saw", some 3, none⟩ : MItem) ∈
      dueSoonSelect [⟨1, "saw", some 3, none⟩, ⟨2, "axe", some 10, none⟩] 0 (0 + 7) ∧
    (⟨2, "axe", some 10, none⟩ : MItem) ∉
      dueSoonSelect [⟨1, "saw", some 3, none⟩, ⟨2, "axe", some 10, none⟩] 0 (0 + 7) :=
  ⟨(due_soon_selection_correct ⟨7, 24, 24, ["ops"]⟩
      ⟨[⟨1, "saw", some 3, none⟩, ⟨2, "axe", some 10, none⟩], [], []⟩ 0).2.2.2.1
      ⟨1, "saw", some 3, none⟩ (by decide) rfl rfl,
   (due_soon_selection_correct ⟨7, 24, 24, ["ops"]⟩
      ⟨[⟨1, "saw", some 3, none⟩, ⟨2, "axe", some 10, none⟩], [], []⟩ 0).2.2.2.2
      ⟨2, "axe", some 10, none⟩ rfl rfl⟩

/-- Claim C4: the overdue set holds exactly the items whose
maintenance-due date is strictly before today (an item due today is not
overdue) and that are not logged as overdue within the repeat window,
ordered by due date ascending. -/
theorem overdue_set_correct (cfg : BatcherConfig) (st : DBState) (today now : Int) :
    (∀ it, it ∈ overdueFinal cfg st today now ↔
        it ∈ st.items ∧ (∃ d, it.maintenanceDue = some d ∧ d < today) ∧
          itemLoggedWithin st.log it.id NStatus.overdue
            (now - cfg.repeatWindowHours) = false)
  ∧ (overdueFinal cfg st today now).Pairwise (fun a b => dueKey a ≤ dueKey b)
  ∧ (∀ it, it.maintenanceDue = some today → it ∉ overdueFinal cfg st today now) := by
  refine ⟨?_, ?_, ?_⟩
  · intro it
    exact (mem_overdueFinal_iff cfg st today now it).trans
      (and_congr_right fun _ => and_congr_left fun _ => isOverdue_iff today it)
  · unfold overdueFinal overdueSelect
    exact List.Pairwise.sublist (List.filter_sublist _) (pairwise_sortByKey dueKey _)
  · intro it hdue hin
    have h2 := ((mem_overdueFinal_iff cfg st today now it).mp hin).2.1
    rw [isOverdue_iff] at h2
    rcases h2 with ⟨d, hd, hlt⟩
    rw [hdue] at hd
    injection hd with hd
    omega

/-- Witness for C4 at a concrete database: the overdue item is in the
set, the item due today is not. -/
theorem overdue_set_correct_witness :
    ((⟨1, "pump", some (-2), none⟩ : MItem) ∈
        overdueFinal ⟨7, 24, 24, ["ops"]⟩
          ⟨[⟨1, "pump", some (-2), none⟩, ⟨2, "fan", some 0, none⟩], [], []⟩ 0 100) ∧
    ((⟨2, "fan", some 0, none⟩ : MItem) ∉
        overdueFinal ⟨7, 24, 24, ["ops"]⟩
          ⟨[⟨1, "pump", some (-2), none⟩, ⟨2, "fan", some 0, none⟩], [], []⟩ 0 100) :=
  ⟨((overdue_set_correct ⟨7, 24, 24, ["ops"]⟩
      ⟨[⟨1, "pump", some (-2), none⟩, ⟨2, "fan", some 0, none⟩], [], []⟩ 0 100).1
      ⟨1, "pump", some (-2), none⟩).mpr
      ⟨by decide, ⟨-2, rfl, by decide⟩, rfl⟩,
   (overdue_set_correct ⟨7, 24, 24, ["ops"]⟩
      ⟨[⟨1, "pump", some (-2), none⟩, ⟨2, "fan", some 0, none⟩], [], []⟩ 0 100).2.2
      ⟨2, "fan", some 0, none⟩ rfl⟩

/-- Claim C1: the cycle drops from its candidate sets every item already
logged with matching status inside the repeat-suppression window (and
re-admits an overdue item once every matching row is strictly older than
the window); two successful cycles run within the window never notify the
same item id and status twice. -/
theorem notification_dedup_idempotent
    (cfg : BatcherConfig) (st : DBState) (t1 n1 t2 n2 : Int)
    (hwin : n2 - n1 ≤ cfg.repeatWindowHours) :
    (∀ it, (∃ r ∈ st.log, r.itemId = some it.id ∧ r.status = NStatus.due ∧
        n1 - cfg.repeatWindowHours ≤ r.sentAt) → it ∉ dueSoonFinal cfg st t1 n1)
  ∧ (∀ it, (∃ r ∈ st.log, r.itemId = some it.id ∧ r.status = NStatus.overdue ∧
        n1 - cfg.repeatWindowHours ≤ r.sentAt) → it ∉ overdueFinal cfg st t1 n1)
  ∧ (∀ it, it ∈ st.items → (∃ d, it.maintenanceDue = some d ∧ d < t1) →
        (∀ r ∈ st.log, r.itemId = some it.id → r.status = NStatus.overdue →
          r.sentAt < n1 - cfg.repeatWindowHours) →
        it ∈ overdueFinal cfg st t1 n1)
  ∧ (∀ iid s,
        (∃ r ∈ newLogRows st (runNotificationCycle cfg st t1 n1 true).1,
            r.itemId = some iid ∧ r.status = s) →
        ¬ ∃ r ∈ newLogRows (runNotificationCycle cfg st t1 n1 true).1
              (runNotificationCycle cfg (runNotificationCycle cfg st t1 n1 true).1
                t2 n2 true).1,
            r.itemId = some iid ∧ r.status = s) := by
  refine ⟨?_, ?_, ?_, ?_⟩
  · intro it hex hmem
    have hf := ((mem_dueSoonFinal_iff cfg st t1 n1 it).mp hmem).2.2
    have ht := (itemLoggedWithin_iff st.log it.id NStatus.due
      (n1 - cfg.repeatWindowHours)).mpr hex
    simp [hf] at ht
  · intro it hex hmem
    have hf := ((mem_overdueFinal_iff cfg st t1 n1 it).mp hmem).2.2
    have ht := (itemLoggedWithin_iff st.log it.id NStatus.overdue
      (n1 - cfg.repeatWindowHours)).mpr hex
    simp [hf] at ht
  · intro it hit hdue hold
    rw [mem_overdueFinal_iff]
    refine ⟨hit, (isOverdue_iff t1 it).mpr hdue, ?_⟩
    by_contra hc
    rw [Bool.not_eq_false] at hc
    rcases (itemLoggedWithin_iff _ _ _ _).mp hc with ⟨r, hr, h1, h2, h3⟩
    exact absurd h3 (not_le.mpr (hold r hr h1 h2))
  · intro iid s h1 h2
    rcases h1 with ⟨r, hr, hrid, hrs⟩
    rcases h2 with ⟨r2, hr2, h2id, h2s⟩
    rcases run_true_cases cfg st t1 n1 with hc1 | hc1
    · rw [hc1] at hr
      rw [show ((st, false) : DBState × Bool).1 = st from rfl, newLogRows_self] at hr
      exact absurd hr (List.not_mem_nil r)
    · rw [hc1] at hr hr2
      rw [show ((successState cfg st t1 n1, true) : DBState × Bool).1 =
        successState cfg st t1 n1 from rfl] at hr hr2
      rw [newLogRows_success] at hr
      have hsent1 : r.sentAt = n1 := (cycleRows_spec cfg st t1 n1 r hr).1
      have hrlog : r ∈ (successState cfg st t1 n1).log := by
        unfold successState
        exact List.mem_append_right st.log hr
      rcases run_true_cases cfg (successState cfg st t1 n1) t2 n2 with hc2 | hc2
      · rw [hc2] at hr2
        rw [show ((successState cfg st t1 n1, false) : DBState × Bool).1 =
          successState cfg st t1 n1 from rfl, newLogRows_self] at hr2
        exact absurd hr2 (List.not_mem_nil r2)
      · rw [hc2] at hr2
        rw [show ((successState cfg (successState cfg st t1 n1) t2 n2, true) :
          DBState × Bool).1 = successState cfg (successState cfg st t1 n1) t2 n2
          from rfl] at hr2
        rw [newLogRows_success] at hr2
        have h2spec := (cycleRows_spec cfg (successState cfg st t1 n1) t2 n2 r2 hr2).2
          iid h2id
        rcases h2spec with ⟨hst2, it2, hit2, hid2⟩ | ⟨hst2, it2, hit2, hid2⟩
        · -- second-cycle row has status overdue, hence s = overdue
          have hs : s = NStatus.overdue := by rw [← h2s, hst2]
          have hf := ((mem_overdueFinal_iff cfg (successState cfg st t1 n1)
            t2 n2 it2).mp hit2).2.2
          have ht := (itemLoggedWithin_iff (successState cfg st t1 n1).log it2.id
            NStatus.overdue (n2 - cfg.repeatWindowHours)).mpr
            ⟨r, hrlog, by rw [hrid, hid2], by rw [hrs, hs], by omega⟩
          simp [hf] at ht
        · have hs : s = NStatus.due := by rw [← h2s, hst2]
          have hf := ((mem_dueSoonFinal_iff cfg (successState cfg st t1 n1)
            t2 n2 it2).mp hit2).2.2
          have ht := (itemLoggedWithin_iff (successState cfg st t1 n1).log it2.id
            NStatus.due (n2 - cfg.repeatWindowHours)).mpr
            ⟨r, hrlog, by rw [hrid, hid2], by rw [hrs, hs], by omega⟩
          simp [hf] at ht

/-- Witness for C1: an item logged `overdue` 2 hours before `now` under a
24-hour window is excluded from the overdue set. -/
theorem notification_dedup_idempotent_witness :
    ((101 : Int) - 100 ≤ (⟨7, 24, 24, ["ops"]⟩ : BatcherConfig).repeatWindowHours) ∧
    (⟨1, "pump", some (-1), none⟩ : MItem) ∉
      overdueFinal ⟨7, 24, 24, ["ops"]⟩
        ⟨[⟨1, "pump", some (-1), none⟩], [], [⟨some 1, none, NStatus.overdue, 98⟩]⟩
        0 100 :=
  ⟨by decide,
   (notification_dedup_idempotent ⟨7, 24, 24, ["ops"]⟩
      ⟨[⟨1, "pump", some (-1), none⟩], [], [⟨some 1, none, NStatus.overdue, 98⟩]⟩
      0 100 0 101 (by decide)).2.1
     ⟨1, "pump", some (-1), none⟩
     ⟨⟨some 1, none, NStatus.overdue, 98⟩, by simp, rfl, rfl, by decide⟩⟩

/-- When the candidate sets are not all empty, the recipients are
configured and the send succeeds, the cycle commits the batched writes. -/
theorem run_success_eq (cfg : BatcherConfig) (st : DBState) (today now : Int)
    (hne : ¬(dueSoonFinal cfg st today now = [] ∧ overdueFinal cfg st today now = [] ∧
      completedFinal cfg st now = []))
    (hrec : ¬ cfg.recipients = []) :
    runNotificationCycle cfg st today now true = (successState cfg st today now, true) := by
  unfold runNotificationCycle
  rw [if_neg hne, if_neg hrec]
  rfl

/-- Claim C8: the cycle never touches MaintenanceEvent rows, only appends
to the NotificationLog (never updates or deletes an existing row), and
changes nothing of any item except possibly its last-notified-at, which
can only become the send timestamp. -/
theorem cycle_write_frame (cfg : BatcherConfig) (st : DBState) (today now : Int)
    (sendOk : Bool) :
    (runNotificationCycle cfg st today now sendOk).1.events = st.events
  ∧ (∃ tl, (runNotificationCycle cfg st today now sendOk).1.log = st.log ++ tl)
  ∧ List.Forall₂ (fun a b => b.id = a.id ∧ b.name = a.name ∧
        b.maintenanceDue = a.maintenanceDue ∧
        (b.lastNotifiedAt = a.lastNotifiedAt ∨ b.lastNotifiedAt = some now))
      st.items (runNotificationCycle cfg st today now sendOk).1.items := by
  have hid : ∀ u : DBState, u = st →
      u.events = st.events ∧ (∃ tl, u.log = st.log ++ tl) ∧
      List.Forall₂ (fun a b => b.id = a.id ∧ b.name = a.name ∧
        b.maintenanceDue = a.maintenanceDue ∧
        (b.lastNotifiedAt = a.lastNotifiedAt ∨ b.lastNotifiedAt = some now))
      st.items u.items := by
    rintro u rfl
    refine ⟨rfl, ⟨[], (List.append_nil u.log).symm⟩, ?_⟩
    exact List.forall₂_same.mpr (fun x _ => ⟨rfl, rfl, rfl, Or.inl rfl⟩)
  cases sendOk with
  | false => exact hid _ (by rw [run_sendFail])
  | true =>
    rcases run_true_cases cfg st today now with hc | hc
    · exact hid _ (by rw [hc])
    · rw [hc]
      refine ⟨rfl, ⟨cycleRows cfg st today now, rfl⟩, ?_⟩
      rw [show ((successState cfg st today now, true) : DBState × Bool).1 =
        successState cfg st today now from rfl]
      unfold successState
      rw [List.forall₂_map_right_iff]
      refine List.forall₂_same.mpr (fun x _ => ?_)
      by_cases hx : x.id ∈ notifiedItemIds cfg st today now
      · rw [if_pos hx]
        exact ⟨rfl, rfl, rfl, Or.inr rfl⟩
      · rw [if_neg hx]
        exact ⟨rfl, rfl, rfl, Or.inl rfl⟩

/-- Counterexample for C7: the `InventoryItem` model in `src/main.py`
carries no last-notified-at column at all — its column list has no
`last_notified_at` (nor `last_notified`) entry. -/
theorem item_last_notified_counterexample :
    "last_notified_at" ∉ inventoryItemColumns.map Prod.fst ∧
    "last_notified" ∉ inventoryItemColumns.map Prod.fst := by
  decide

/-- Claim C7 (amended): the `InventoryItem` record in `src/main.py`
carries nullable `last_checked_in` and `last_checked_out` timestamps but
no last-notified-at column; in the spec-modelled notification cycle,
after every successful send each notified item gets its last-notified-at
set to the send timestamp while the matching NotificationLog row with
status `due` or `overdue` is inserted. -/
theorem item_last_notified_amended :
    ("last_checked_in", true) ∈ inventoryItemColumns
  ∧ ("last_checked_out", true) ∈ inventoryItemColumns
  ∧ "last_notified_at" ∉ inventoryItemColumns.map Prod.fst
  ∧ (∀ (cfg : BatcherConfig) (st : DBState) (today now : Int),
      cfg.recipients ≠ [] →
      (∀ it ∈ overdueFinal cfg st today now,
        ({ itemId := some it.id, eventId := none, status := NStatus.overdue,
            sentAt := now } : LogRow) ∈ (runNotificationCycle cfg st today now true).1.log ∧
        ∃ it2 ∈ (runNotificationCycle cfg st today now true).1.items,
          it2.id = it.id ∧ it2.name = it.name ∧ it2.lastNotifiedAt = some now)
    ∧ (∀ it ∈ dueSoonFinal cfg st today now,
        ({ itemId := some it.id, eventId := none, status := NStatus.due,
            sentAt := now } : LogRow) ∈ (runNotificationCycle cfg st today now true).1.log ∧
        ∃ it2 ∈ (runNotificationCycle cfg st today now true).1.items,
          it2.id = it.id ∧ it2.name = it.name ∧ it2.lastNotifiedAt = some now)) := by
  refine ⟨by decide, by decide, by decide, ?_⟩
  intro cfg st today now hrec
  constructor
  · intro it hit
    have hne : ¬(dueSoonFinal cfg st today now = [] ∧ overdueFinal cfg st today now = [] ∧
        completedFinal cfg st now = []) := by
      rintro ⟨_, hod, _⟩
      rw [hod] at hit
      exact absurd hit (List.not_mem_nil it)
    rw [run_success_eq cfg st today now hne hrec]
    have hitems : it ∈ st.items := ((mem_overdueFinal_iff cfg st today now it).mp hit).1
    have hinotif : it.id ∈ notifiedItemIds cfg st today now := by
      unfold notifiedItemIds
      exact List.mem_append_left _ (List.mem_map.mpr ⟨it, hit, rfl⟩)
    constructor
    · unfold successState cycleRows
      refine List.mem_append_right st.log ?_
      refine List.mem_append_left _ (List.mem_append_left _ ?_)
      exact List.mem_map.mpr ⟨it, hit, rfl⟩
    · refine ⟨{ it with lastNotifiedAt := some now }, ?_, rfl, rfl, rfl⟩
      unfold successState
      exact List.mem_map.mpr ⟨it, hitems, by rw [if_pos hinotif]⟩
  · intro it hit
    have hne : ¬(dueSoonFinal cfg st today now = [] ∧ overdueFinal cfg st today now = [] ∧
        completedFinal cfg st now = []) := by
      rintro ⟨hds, _, _⟩
      rw [hds] at hit
      exact absurd hit (List.not_mem_nil it)
    rw [run_success_eq cfg st today now hne hrec]
    have hitems : it ∈ st.items := ((mem_dueSoonFinal_iff cfg st today now it).mp hit).1
    have hinotif : it.id ∈ notifiedItemIds cfg st today now := by
      unfold notifiedItemIds
      exact List.mem_append_right _ (List.mem_map.mpr ⟨it, hit, rfl⟩)
    constructor
    · unfold successState cycleRows
      refine List.mem_append_right st.log ?_
      refine List.mem_append_left _ (List.mem_append_right _ ?_)
      exact List.mem_map.mpr ⟨it, hit, rfl⟩
    · refine ⟨{ it with lastNotifiedAt := some now }, ?_, rfl, rfl, rfl⟩
      unfold successState
      exact List.mem_map.mpr ⟨it, hitems, by rw [if_pos hinotif]⟩

/-- Witness for C7 (amended) at a concrete database: the overdue item id 1
gets its log row and its last-notified-at stamped with the send time. -/
theorem item_last_notified_amended_witness :
    (⟨7, 24, 24, ["ops"]⟩ : BatcherConfig).recipients ≠ [] ∧
    (⟨1, "pump", some (-1), none⟩ : MItem) ∈
      overdueFinal ⟨7, 24, 24, ["ops"]⟩ ⟨[⟨1, "pump", some (-1), none⟩], [], []⟩ 0 100 ∧
    ({ itemId := some 1, eventId := none, status := NStatus.overdue,
        sentAt := 100 } : LogRow) ∈
      (runNotificationCycle ⟨7, 24, 24, ["ops"]⟩
        ⟨[⟨1, "pump", some (-1), none⟩], [], []⟩ 0 100 true).1.log :=
  ⟨by decide, by decide,
   ((item_last_notified_amended.2.2.2 ⟨7, 24, 24, ["ops"]⟩
      ⟨[⟨1, "pump", some (-1), none⟩], [], []⟩ 0 100 (by decide)).1
      ⟨1, "pump", some (-1), none⟩ (by decide)).1⟩

/-- A concrete inventory item used to exercise the checkout handler. -/
def checkoutSample : ItemState :=
  { id := 1, name := "drill", description := none, category := none, quantity := 1,
    location := some "shed", gpsLat := none, gpsLng := none, status := "available",
    lastCheckedIn := none, lastCheckedOut := none, maintenanceDue := none,
    maintenanceNotes := none, createdAt := 0, updatedAt := 0 }

/-- Counterexample for C9: checkout does not leave all other fields
unchanged — committing the row runs the `onupdate=datetime.utcnow` hook
of `updated_at` (src/main.py lines 167-169), so `updated_at` moves to the
current time even when the location form value is absent. -/
theorem checkout_counterexample :
    (checkout_inventory checkoutSample none 5).updatedAt ≠ checkoutSample.updatedAt := by
  decide

/-- Claim C9 (amended): checkout sets status to `checked_out` and
last-checked-out to the current time; a missing or empty
`checkout_location` form value leaves the location unchanged while any
other value replaces it; every other field is unchanged except
`updated_at`, which the ORM refreshes to the current time on commit. -/
theorem checkout_amended (item : ItemState) (loc : Option String) (now : Int) :
    (checkout_inventory item loc now).status = "checked_out"
  ∧ (checkout_inventory item loc now).lastCheckedOut = some now
  ∧ ((loc = none ∨ loc = some "") →
      (checkout_inventory item loc now).location = item.location)
  ∧ (∀ s, loc = some s → s ≠ "" → (checkout_inventory item loc now).location = some s)
  ∧ (checkout_inventory item loc now).updatedAt = now
  ∧ (checkout_inventory item loc now).id = item.id
  ∧ (checkout_inventory item loc now).name = item.name
  ∧ (checkout_inventory item loc now).description = item.description
  ∧ (checkout_inventory item loc now).category = item.category
  ∧ (checkout_inventory item loc now).quantity = item.quantity
  ∧ (checkout_inventory item loc now).gpsLat = item.gpsLat
  ∧ (checkout_inventory item loc now).gpsLng = item.gpsLng
  ∧ (checkout_inventory item loc now).lastCheckedIn = item.lastCheckedIn
  ∧ (checkout_inventory item loc now).maintenanceDue = item.maintenanceDue
  ∧ (checkout_inventory item loc now).maintenanceNotes = item.maintenanceNotes
  ∧ (checkout_inventory item loc now).createdAt = item.createdAt := by
  refine ⟨rfl, rfl, ?_, ?_, rfl, rfl, rfl, rfl, rfl, rfl, rfl, rfl, rfl, rfl, rfl, rfl⟩
  · rintro (rfl | rfl) <;> rfl
  · rintro s rfl hs
    simp [checkout_inventory, pyFormOr, hs]

/-- Witness for C9 (amended): checking out with location `bench` stamps
the status, the timestamp and the new location. -/
theorem checkout_amended_witness :
    (checkout_inventory checkoutSample (some "bench") 5).status = "checked_out" ∧
    (checkout_inventory checkoutSample (some "bench") 5).location = some "bench" ∧
    (checkout_inventory checkoutSample (some "bench") 5).updatedAt = 5 :=
  ⟨(checkout_amended checkoutSample (some "bench") 5).1,
   (checkout_amended checkoutSample (some "bench") 5).2.2.2.1 "bench" rfl (by decide),
   (checkout_amended checkoutSample (some "bench") 5).2.2.2.2.1⟩

/-- Unfolding `updateCategory` when the id lookup fails. -/
theorem updateCategory_notFound (cats : List Category) (items : List ItemState)
    (cid : Nat) (raw : Option String)
    (hfind : cats.find? (fun c => decide (c.id = cid)) = none) :
    updateCategory cats items cid raw = (cats, items, 404) := by
  unfold updateCategory
  rw [hfind]

/-- Unfolding `updateCategory` when the id lookup succeeds. -/
theorem updateCategory_found (cats : List Category) (items : List ItemState)
    (cid : Nat) (raw : Option String) (cat : Category)
    (hfind : cats.find? (fun c => decide (c.id = cid)) = some cat) :
    updateCategory cats items cid raw =
      (if normCatName raw = "" then (cats, items, 400)
       else if cats.any (fun c =>
           decide (asciiLower c.name = asciiLower (normCatName raw)) &&
             decide (c.id ≠ cid)) then
         (cats, items, 409)
       else
         (cats.map (fun c => if c.id = cid then { c with name := normCatName raw } else c),
          items.map (fun it =>
            if it.category = some cat.name then
              { it with category := some (normCatName raw) }
            else it),
          200)) := by
  unfold updateCategory
  rw [hfind]

/-- Renaming one category to a name that no other category matches up to
ASCII case preserves pairwise case-insensitive distinctness. -/
theorem renamed_pairwise (cats : List Category) (cid : Nat) (nm : String)
    (hids : CatIdsOk cats) (hinv : CatNamesOk cats)
    (hall : ∀ c ∈ cats, c.id ≠ cid → asciiLower c.name ≠ asciiLower nm) :
    CatNamesOk (cats.map (fun c => if c.id = cid then { c with name := nm } else c)) := by
  unfold CatNamesOk
  rw [List.pairwise_map]
  refine (hids.and hinv).imp_of_mem ?_
  intro a b ha hb hab
  rcases hab with ⟨habid, habname⟩
  by_cases ha2 : a.id = cid
  · rw [if_pos ha2]
    have hb2 : b.id ≠ cid := fun hbc => habid (by rw [ha2, hbc])
    rw [if_neg hb2]
    exact fun h => hall b hb hb2 h.symm
  · rw [if_neg ha2]
    by_cases hb2 : b.id = cid
    · rw [if_pos hb2]
      exact hall a ha ha2
    · rw [if_neg hb2]
      exact habname

/-- Claim C10: creating or renaming a category whose nonempty trimmed
name equals an existing (other) category's name up to ASCII case answers
409 and leaves the category table unchanged, and both handlers preserve
the invariant that no two categories have case-insensitively equal names
(given pairwise distinct primary keys). -/
theorem category_name_uniqueness
    (cats : List Category) (items : List ItemState) (raw : Option String)
    (newId cid : Nat) (hids : CatIdsOk cats) (hinv : CatNamesOk cats) :
    ((normCatName raw ≠ "" ∧
        ∃ c ∈ cats, asciiLower c.name = asciiLower (normCatName raw)) →
      createCategory cats raw newId = (cats, 409))
  ∧ ((normCatName raw ≠ "" ∧ (∃ c ∈ cats, c.id = cid) ∧
        ∃ c ∈ cats, c.id ≠ cid ∧ asciiLower c.name = asciiLower (normCatName raw)) →
      updateCategory cats items cid raw = (cats, items, 409))
  ∧ CatNamesOk (createCategory cats raw newId).1
  ∧ CatNamesOk (updateCategory cats items cid raw).1 := by
  refine ⟨?_, ?_, ?_, ?_⟩
  · rintro ⟨hname, c, hc, heq⟩
    unfold createCategory
    rw [if_neg hname, if_pos (List.any_eq_true.mpr ⟨c, hc, by simpa using heq⟩)]
  · rintro ⟨hname, ⟨c0, hc0, hc0id⟩, c, hc, hcid, heq⟩
    have hfind : ∃ x, cats.find? (fun c => decide (c.id = cid)) = some x := by
      rw [← Option.isSome_iff_exists, List.find?_isSome]
      exact ⟨c0, hc0, by simpa using hc0id⟩
    rcases hfind with ⟨cat, hfind⟩
    rw [updateCategory_found cats items cid raw cat hfind, if_neg hname,
      if_pos (List.any_eq_true.mpr ⟨c, hc, by simp [heq, hcid]⟩)]
  · unfold createCategory
    split
    · exact hinv
    · split
      · exact hinv
      · next hany =>
        unfold CatNamesOk
        rw [List.pairwise_append]
        refine ⟨hinv, by simp, ?_⟩
        intro a ha b hb
        rw [List.mem_singleton] at hb
        subst hb
        intro hcontr
        rw [Bool.not_eq_true, List.any_eq_false] at hany
        have := hany a ha
        simp at this
        exact this hcontr
  · cases hfind : cats.find? (fun c => decide (c.id = cid)) with
    | none =>
      rw [updateCategory_notFound cats items cid raw hfind]
      exact hinv
    | some cat =>
      rw [updateCategory_found cats items cid raw cat hfind]
      by_cases h1 : normCatName raw = ""
      · rw [if_pos h1]
        exact hinv
      · rw [if_neg h1]
        by_cases h2 : (cats.any (fun c =>
            decide (asciiLower c.name = asciiLower (normCatName raw)) &&
              decide (c.id ≠ cid))) = true
        · rw [if_pos h2]
          exact hinv
        · rw [if_neg h2]
          rw [Bool.not_eq_true, List.any_eq_false] at h2
          have hall : ∀ c ∈ cats, c.id ≠ cid →
              asciiLower c.name ≠ asciiLower (normCatName raw) := by
            intro c hc hcid heq
            have := h2 c hc
            simp at this
            exact hcid (this heq)
          exact renamed_pairwise cats cid (normCatName raw) hids hinv hall

/-- Witness for C10: renaming-proof concrete table — creating ` tools `
against existing `Tools` answers 409 and leaves the table unchanged. -/
theorem category_name_uniqueness_witness :
    CatIdsOk [({ id := 1, name := "Tools" } : Category)] ∧
    CatNamesOk [({ id := 1, name := "Tools" } : Category)] ∧
    createCategory [{ id := 1, name := "Tools" }] (some " tools ") 2 =
      ([{ id := 1, name := "Tools" }], 409) :=
  ⟨by simp [CatIdsOk], by simp [CatNamesOk],
   (category_name_uniqueness [{ id := 1, name := "Tools" }] [] (some " tools ") 2 0
      (by simp [CatIdsOk]) (by simp [CatNamesOk])).1
     ⟨by decide, { id := 1, name := "Tools" }, by simp, by decide⟩⟩

end InventoryTracker
